import Mathlib

/-!
Shallow embedding of the core of `src/sketch/sketch.ino` (an ESP32 transit
departure display) together with proofs about its specification claims.

Modelling conventions:
* Arduino `String` becomes Lean `String`; byte positions become character
  positions (all inputs of interest are Latin text).
* `millis()` timestamps become `Nat` milliseconds; `unsigned long`
  subtraction on monotone timestamps becomes truncated `Nat` subtraction.
* `std::map` becomes an association list; `std::vector` becomes `List`.
* The display width collaborator (`CalculateFontWidth_px` and the minimal
  sprite width) is an explicit parameter `fits : String → Bool`, matching
  `Screen::IsEnoughSpaceForMiddleText`.
* Tasks and the mutex are modelled by explicit state-passing: one
  acquisition cycle and one render tick become pure state transformers.
-/

namespace WlEsp32

/-- `Screen::ConvertGermanToLatin`: fold German characters to base Latin
letters, with the doubled-letter substitution for the sharp s. -/
def germanCharSub (c : Char) : List Char :=
  if c = 'ä' then ['a']
  else if c = 'Ä' then ['A']
  else if c = 'ö' then ['o']
  else if c = 'Ö' then ['O']
  else if c = 'ü' then ['u']
  else if c = 'Ü' then ['U']
  else if c = 'ß' then ['s', 's']
  else [c]

def ConvertGermanToLatin (s : String) : String :=
  String.mk (s.toList.flatMap germanCharSub)

/-- Arduino `String::trim` (drop leading and trailing whitespace). -/
def trimChars (cs : List Char) : List Char :=
  ((cs.dropWhile Char.isWhitespace).reverse.dropWhile Char.isWhitespace).reverse

def strTrim (s : String) : String :=
  String.mk (trimChars s.toList)

/-- `FixJsonMistake`: diacritic folding, trim, and title-casing of
single-word destinations (no space, no hyphen, length > 1). -/
def FixJsonMistake (word : String) : String :=
  let w := strTrim (ConvertGermanToLatin word)
  let cs := w.toList
  if ¬ cs.contains '-' ∧ ¬ cs.contains ' ' ∧ 1 < cs.length then
    match cs.map Char.toLower with
    | [] => w
    | c :: rest => String.mk (c.toUpper :: rest)
  else w

/-- `struct Monitor` of the sketch: one route+direction departure group. -/
structure Monitor where
  name : String
  towards : String
  description : String
  countdown : List Int
deriving Repr, DecidableEq

def Monitor.key (m : Monitor) : String × String := (m.name, m.towards)

/-- One element of the `departures.departure` JSON array:
`vehicle = some (name, towards)` when a `vehicle` object is present, and
`departureTime = some cd` when a `departureTime` object with its countdown
is present. -/
structure DepartureItem where
  vehicle : Option (String × String)
  departureTime : Option Int
deriving Repr, DecidableEq

/-- One element of the `lines` JSON array: its `name`, `towards`, and the
`departures.departure` value (`none` when it is not a JSON array). -/
structure LineRec where
  name : String
  towards : String
  departure : Option (List DepartureItem)
deriving Repr, DecidableEq

/-- One element of the `data.monitors` JSON array. -/
structure MonitorRec where
  lines : List LineRec
deriving Repr, DecidableEq

/-- `std::map<String,String>::operator[]` on a built map: lookup with the
default-constructed empty string for missing keys. -/
def mapLookupDefault (m : List (String × String)) (k : String) : String :=
  match m with
  | [] => ""
  | (k1, v) :: rest => if k1 = k then v else mapLookupDefault rest k

/-- The countdown pushed for one departure item: the sentinel -1 is skipped. -/
def cdList (cd : Int) : List Int :=
  if cd = -1 then [] else [cd]

/-- The fields of the local `cur_monitor` plus the local `countdown`
variable after the vehicle/line branch of `GetMonitorsFromJson`:
prefer the vehicle-level name and destination, fall back to the line-level
ones, and leave everything empty (countdown -1) when no `departureTime`
is present. -/
def itemFields (lineName lineTowards : String) (it : DepartureItem) :
    Monitor × Int :=
  match it.vehicle, it.departureTime with
  | some v, some cd => (⟨v.1, FixJsonMistake v.2, "", cdList cd⟩, cd)
  | none, some cd => (⟨lineName, FixJsonMistake lineTowards, "", cdList cd⟩, cd)
  | _, none => (⟨"", "", "", []⟩, -1)

/-- The `std::find_if` merge of `GetMonitorsFromJson`: update the first
monitor sharing `(name, towards)` by appending the countdown (unless -1),
or push the new monitor at the end when no monitor matches. -/
def mergeMonitor (vec : List Monitor) (m : Monitor) (cd : Int) : List Monitor :=
  match vec with
  | [] => [m]
  | x :: rest =>
    if x.name = m.name ∧ x.towards = m.towards then
      (if cd = -1 then x else { x with countdown := x.countdown ++ [cd] }) :: rest
    else
      x :: mergeMonitor rest m cd

/-- Processing of one departure item (with its enclosing line's name and
towards as context) against the accumulated `monitors_vec`. -/
def stepItem (descrMap : List (String × String)) (vec : List Monitor)
    (p : (String × String) × DepartureItem) : List Monitor :=
  let fc := itemFields p.1.1 p.1.2 p.2
  mergeMonitor vec { fc.1 with description := mapLookupDefault descrMap fc.1.name } fc.2

/-- The inner departure loop of `GetMonitorsFromJson`. -/
def processItems (descrMap : List (String × String)) (lineName lineTowards : String)
    (items : List DepartureItem) (vec : List Monitor) : List Monitor :=
  match items with
  | [] => vec
  | it :: rest =>
      processItems descrMap lineName lineTowards rest
        (stepItem descrMap vec ((lineName, lineTowards), it))

/-- One `line` of the monitor walk: skipped when `departures.departure`
is not a JSON array. -/
def processLine (descrMap : List (String × String)) (ln : LineRec)
    (vec : List Monitor) : List Monitor :=
  match ln.departure with
  | some items => processItems descrMap ln.name ln.towards items vec
  | none => vec

/-- The monitor→line→departure walk of `GetMonitorsFromJson`, starting from
an already built alert map `descrMap` (`lines_to_description_map`). -/
def GetMonitorsFromJson (descrMap : List (String × String))
    (mons : List MonitorRec) : List Monitor :=
  mons.foldl (fun vec mr => mr.lines.foldl (fun v ln => processLine descrMap ln v) vec) []

/-- The departure items of one line, each paired with its line context. -/
def lineItems (ln : LineRec) : List ((String × String) × DepartureItem) :=
  match ln.departure with
  | some items => items.map (fun it => ((ln.name, ln.towards), it))
  | none => []

/-- All departure items of a payload in walk order, with line context. -/
def allItems (mons : List MonitorRec) : List ((String × String) × DepartureItem) :=
  mons.flatMap (fun mr => mr.lines.flatMap lineItems)

/-- The `(name, towards)` key an item resolves to. -/
def itemKey (p : (String × String) × DepartureItem) : String × String :=
  ((itemFields p.1.1 p.1.2 p.2).1).key

/-- The countdowns a list of contextualised items contributes to key `k`:
input order, sentinel -1 excluded. -/
def extractedCds (ps : List ((String × String) × DepartureItem))
    (k : String × String) : List Int :=
  (ps.filter (fun p => itemKey p = k)).flatMap
    (fun p => cdList (itemFields p.1.1 p.1.2 p.2).2)

/-- `ApiCacheManager::CachedData`. -/
structure CachedData where
  json_response : String
  timestamp_ms : Nat
  is_valid : Bool
deriving Repr, DecidableEq

/-- `ApiCacheManager` state: the per-stop-id cache map and the shared
time-of-last-network-call timestamp. -/
structure ApiCacheManager where
  cache : List (String × CachedData)
  last_api_call_ms : Nat
deriving Repr, DecidableEq

def CACHE_DURATION_MS : Nat := 60000

def SEQUENTIAL_DELAY_MS : Nat := 3000

def cacheFind (c : List (String × CachedData)) (k : String) : Option CachedData :=
  match c with
  | [] => none
  | (k1, v) :: rest => if k1 = k then some v else cacheFind rest k

def cacheInsert (c : List (String × CachedData)) (k : String) (v : CachedData) :
    List (String × CachedData) :=
  match c with
  | [] => [(k, v)]
  | (k1, v1) :: rest =>
      if k1 = k then (k, v) :: rest else (k1, v1) :: cacheInsert rest k v

/-- The outcome of one `FetchRBL` call: the returned payload, the new
manager state, and the start time of the network call if one was made. -/
structure FetchResult where
  ret : String
  st : ApiCacheManager
  netStart : Option Nat
deriving Repr, DecidableEq

/-- The cache-miss path of `FetchRBL`: wait out the remaining sequential
delay, call `GetJson` (payload `net`, taking `netDur` ms), stamp
`last_api_call_ms` at completion and store the entry (valid iff the body
is non-empty). -/
def fetchFresh (st : ApiCacheManager) (now : Nat) (rbl : String)
    (net : String) (netDur : Nat) : FetchResult :=
  let start :=
    if 0 < st.last_api_call_ms ∧ now - st.last_api_call_ms < SEQUENTIAL_DELAY_MS then
      st.last_api_call_ms + SEQUENTIAL_DELAY_MS
    else now
  let done := start + netDur
  { ret := net
    st := { cache := cacheInsert st.cache rbl ⟨net, done, net ≠ ""⟩
            last_api_call_ms := done }
    netStart := some start }

/-- `ApiCacheManager::FetchRBL`. -/
def FetchRBL (st : ApiCacheManager) (now : Nat) (rbl : String) (force : Bool)
    (net : String) (netDur : Nat) : FetchResult :=
  if rbl = "" then ⟨"", st, none⟩
  else
    match force, cacheFind st.cache rbl with
    | false, some cached =>
        if cached.is_valid = true ∧ now - cached.timestamp_ms < CACHE_DURATION_MS then
          ⟨cached.json_response, st, none⟩
        else fetchFresh st now rbl net netDur
    | _, _ => fetchFresh st now rbl net netDur

/-- The `Config` fields the specified core reads. -/
structure Config where
  cnt_lines : Nat
  lines_filter : String
  lines_rbl : String
  line_1_name : String
  line_2_name : String
  line_3_name : String
  line_3_rbl : String
  line_3_filter : String
deriving Repr, DecidableEq

/-- `Config::GetLineName` (defaulting to line 1 for other indices). -/
def Config.GetLineName (cfg : Config) (line_idx : Nat) : String :=
  if line_idx = 1 then cfg.line_1_name
  else if line_idx = 2 then cfg.line_2_name
  else if line_idx = 3 then cfg.line_3_name
  else cfg.line_1_name

/-- `GetSplittedStrings(data, sep)`: split keeping empty chunks, with the
remainder after the last separator as the final chunk. -/
def GetSplittedStrings (data : String) (sep : Char) : List String :=
  data.split (fun c => c = sep)

/-- `GetFilteredMonitors`: keep monitors whose name is in the comma list;
an empty filter passes everything through. -/
def GetFilteredMonitors (data : List Monitor) (filter : String) : List Monitor :=
  if filter = "" then data
  else
    let custom_names := GetSplittedStrings filter ','
    data.filter (fun m => custom_names.contains m.name)

/-- `GetMonitorsPerDisplayLine`: per display line, the whole data when the
line pin is empty, else the subsequence with that exact name. -/
def GetMonitorsPerDisplayLine (data : List Monitor) (cfg : Config) :
    List (List Monitor) :=
  (List.range cfg.cnt_lines).map (fun i =>
    let lineName := cfg.GetLineName (i + 1)
    if lineName = "" then data else data.filter (fun m => m.name = lineName))

/-- `GetMonitorsPerDisplayLineWithSeparateLine3`: lines 1-2 from the main
data, line 3 (when configured) from the separate line-3 data. -/
def GetMonitorsPerDisplayLineWithSeparateLine3 (mainData line3Data : List Monitor)
    (cfg : Config) : List (List Monitor) :=
  (List.range cfg.cnt_lines).map (fun i =>
    if i < 2 then
      let lineName := cfg.GetLineName (i + 1)
      if lineName = "" then mainData
      else mainData.filter (fun m => m.name = lineName)
    else
      let lineName := cfg.GetLineName 3
      if lineName = "" then line3Data
      else line3Data.filter (fun m => m.name = lineName))

/-- The comparator of `TraficManager::sortTrafic`:
`a.countdown < b.countdown`, the lexicographic order on `vector<int>`. -/
def cdLt (a b : Monitor) : Bool :=
  decide (a.countdown < b.countdown)

def insertCd (m : Monitor) : List Monitor → List Monitor
  | [] => [m]
  | x :: xs => if cdLt x m then x :: insertCd m xs else m :: x :: xs

/-- `TraficManager::sortTrafic`: sort ascending by the countdown vector
(modelled as an insertion sort; `std::sort` guarantees a sorted
permutation for this strict-weak-order comparator). -/
def sortTrafic : List Monitor → List Monitor
  | [] => []
  | x :: xs => insertCd x (sortTrafic xs)

/-- The scroll state owned by `Screen`: per (row, sub-line) the horizontal
offset `vec_scrolls_coords` and the kicked-off flag
`vec_init_scrolls_coords`. -/
structure ScreenState where
  scrolls : List (List Int)
  inits : List (List Bool)
deriving Repr, DecidableEq

/-- `Screen::FullResetScroll`: zero every offset, clear every flag. -/
def FullResetScroll (s : ScreenState) : ScreenState :=
  { scrolls := s.scrolls.map (fun row => row.map (fun _ => (0 : Int)))
    inits := s.inits.map (fun row => row.map (fun _ => false)) }

/-- `Screen::SelectiveResetScroll`: reset only the rows flagged in
`isNeedReset` (indexed per row). -/
def SelectiveResetScroll (s : ScreenState) (isNeedReset : List Bool) : ScreenState :=
  { scrolls := (s.scrolls.enum).map (fun rc =>
      if isNeedReset.getD rc.1 false then rc.2.map (fun _ => (0 : Int)) else rc.2)
    inits := (s.inits.enum).map (fun rc =>
      if isNeedReset.getD rc.1 false then rc.2.map (fun _ => false) else rc.2) }

/-- The flag vector computed by `TraficManager::SelectiveReset`: a row
needs a reset when either description is empty or they differ. -/
def selectiveResetFlags (cur fut : List Monitor) : List Bool :=
  (cur.zip fut).map (fun ab =>
    if ab.1.description = "" ∨ ab.2.description = "" then true
    else ab.1.description ≠ ab.2.description)

/-- `TraficManager::SelectiveReset`: acts only on equal-size subsets of
size above one, otherwise leaves the screen untouched. -/
def SelectiveReset (scr : ScreenState) (cur fut : List Monitor) : ScreenState :=
  if cur.length = fut.length then
    if 1 < cur.length then SelectiveResetScroll scr (selectiveResetFlags cur fut)
    else scr
  else scr

/-- The `TraficManager` fields the claims are about. `trafic_clock_null`
mirrors `p_trafic_clock == nullptr`; the constructor sets it and no code
in the sketch ever allocates a `TraficClock`. -/
structure TraficManager where
  monitors_per_line : List (List Monitor)
  last_toggle_time : Nat
  show_first_departure : Bool
  trafic_clock_null : Bool
deriving Repr, DecidableEq

/-- The `TraficManager` constructor. -/
def initTraficManager : TraficManager :=
  { monitors_per_line := []
    last_toggle_time := 0
    show_first_departure := true
    trafic_clock_null := true }

/-- `TraficManager::update` acting on the manager and the screen: bucket
and sort the monitors, reset the clock and the scroll state only when
`p_trafic_clock` is non-null, then reset the toggle. -/
def TraficManager.update (tm : TraficManager) (scr : ScreenState) (cfg : Config)
    (now : Nat) (mainData line3Data : List Monitor) :
    TraficManager × ScreenState :=
  let mpl :=
    if cfg.cnt_lines = 3 ∧ line3Data ≠ [] then
      GetMonitorsPerDisplayLineWithSeparateLine3 mainData line3Data cfg
    else GetMonitorsPerDisplayLine mainData cfg
  let mpl := mpl.map sortTrafic
  let scr1 := if tm.trafic_clock_null then scr else FullResetScroll scr
  ({ tm with monitors_per_line := mpl
             last_toggle_time := now
             show_first_departure := true }, scr1)

/-- The state transition of `TraficManager::updateScreen` (the drawing
itself is display I/O on the collaborator): with no data yet, install the
empty per-line structure; otherwise flip the toggle and fully reset the
scroll state once 4000 ms have passed. -/
def TraficManager.updateScreen (tm : TraficManager) (scr : ScreenState)
    (cfg : Config) (now : Nat) : TraficManager × ScreenState :=
  if tm.monitors_per_line = [] then
    ({ tm with monitors_per_line := List.replicate cfg.cnt_lines [] }, scr)
  else if 4000 ≤ now - tm.last_toggle_time then
    ({ tm with show_first_departure := ¬ tm.show_first_departure
               last_toggle_time := now }, FullResetScroll scr)
  else (tm, scr)

/-- One acquisition cycle of `UpdateDataTask` after parsing, acting on the
shared state under the mutex: filter the main result, build the line-3
result when configured, and install the update only when at least one
result is non-empty. -/
def acquisitionCycle (tm : TraficManager) (scr : ScreenState) (cfg : Config)
    (now : Nat) (mainParsed line3Parsed : List Monitor) :
    TraficManager × ScreenState :=
  let tempTrafficSet := GetFilteredMonitors mainParsed cfg.lines_filter
  let line3TrafficSet :=
    if cfg.cnt_lines = 3 ∧ cfg.line_3_rbl ≠ "" then
      let f := if cfg.line_3_filter = "" then cfg.lines_filter else cfg.line_3_filter
      GetFilteredMonitors line3Parsed f
    else []
  if tempTrafficSet ≠ [] ∨ line3TrafficSet ≠ [] then
    TraficManager.update tm scr cfg now tempTrafficSet line3TrafficSet
  else (tm, scr)

/-- `Screen::IsEnoughSpaceForMiddleText` against an explicit width
collaborator and available sprite width. -/
def IsEnoughSpaceForMiddleText (widthPx : String → Nat) (minSprite : Nat)
    (s : String) : Bool :=
  decide (widthPx s ≤ minSprite)

/-- The character loop of `splitStringToWords`: words end at a space or
hyphen (kept), and a word is dropped whenever it does not fit on its own. -/
def splitWordsAux (fits : String → Bool) (cur : List Char) :
    List Char → List String
  | [] => if cur ≠ [] ∧ fits (String.mk cur) = true then [String.mk cur] else []
  | c :: rest =>
      if c = ' ' ∨ c = '-' then
        (if fits (String.mk (cur ++ [c])) = true then [String.mk (cur ++ [c])] else [])
          ++ splitWordsAux fits [] rest
      else splitWordsAux fits (cur ++ [c]) rest

/-- `TraficManager::splitStringToWords`. -/
def splitStringToWords (fits : String → Bool) (str : String) : List String :=
  splitWordsAux fits [] str.toList

/-- The greedy packing loop of `splitToString`: extend the current
sub-line while `current + " " + word` fits, else close it and start over
with the word. -/
def packWordsAux (fits : String → Bool) (cur : String) :
    List String → List String
  | [] => if cur ≠ "" then [cur] else []
  | w :: rest =>
      if fits (cur ++ " " ++ w) = true then packWordsAux fits (cur ++ w) rest
      else if cur ≠ "" then cur :: packWordsAux fits w rest
      else packWordsAux fits w rest

/-- The trailing-character trim of `splitToString`: every non-empty
sub-line except the last loses its final character. -/
def trimSubtexts (subtexts : List String) : List String :=
  (subtexts.enum).map (fun si =>
    if si.2 ≠ "" ∧ subtexts.length - 1 ≠ si.1 then
      String.mk (si.2.toList.take (si.2.toList.length - 1))
    else si.2)

/-- `TraficManager::splitToString`: the greedy word wrap. -/
def splitToString (fits : String → Bool) (input : String) : List String :=
  trimSubtexts (packWordsAux fits "" (splitStringToWords fits input))

/-- The character scan of `getMaximumPosibleSingleNoScrollWord`: append
character `i` while the prefix of length `i` still fits, stop at the
first prefix that does not. -/
def scanAux (fits : String → Bool) (pre : List Char) :
    List Char → List Char
  | [] => pre
  | c :: rest =>
      if fits (String.mk pre) = true then scanAux fits (pre ++ [c]) rest
      else pre

/-- `TraficManager::getMaximumPosibleSingleNoScrollWord`: the scanned
word with its last two characters removed (`String::remove(len - 2)`),
or empty when shorter than two characters. -/
def getMaximumPosibleSingleNoScrollWord (fits : String → Bool) (str : String) :
    String :=
  let cur := scanAux fits [] str.toList
  if 2 ≤ cur.length then String.mk (cur.take (cur.length - 2)) else ""

/-- The middle-text block of `DrawTraficOnScreen` (sketch lines
1799-1818): wrap the destination, count the characters retained by the
first two sub-lines, and on low retention (the float test
`cnt / len < 0.5`, exact on these magnitudes as `2 * cnt < len`) replace
the wrap by the truncated no-scroll word with an empty second sub-line. -/
def layoutMiddle (fits : String → Bool) (towards : String) : String × String :=
  let splitted := splitToString fits towards
  let sub0 := splitted.getD 0 ""
  let sub1 := splitted.getD 1 ""
  let cnt_char := ((splitted.take 2).map String.length).sum
  if towards ≠ "" ∧ 2 * cnt_char < towards.length then
    (getMaximumPosibleSingleNoScrollWord fits towards, "")
  else (sub0, sub1)

/-- Written from the specification text, for comparison with the code:
the longest prefix of the raw text that fits the available width. -/
def specLongestFittingPfx (fits : String → Bool) (str : String) : String :=
  let cs := str.toList
  let fitting := (List.range (cs.length + 1)).filter
    (fun k => fits (String.mk (cs.take k)) = true)
  String.mk (cs.take (fitting.foldl max 0))

/-- Written from the specification text, for comparison with the code:
the longest fitting prefix trimmed by its two trailing characters. -/
def specFallbackSub1 (fits : String → Bool) (str : String) : String :=
  let best := (specLongestFittingPfx fits str).toList
  String.mk (best.take (best.length - 2))

/-- `TraficManager::GetValidCountdown`. -/
def GetValidCountdown (c : List Int) (index : Nat) : String :=
  if c = [] then ""
  else
    let best_index := min index (c.length - 1)
    toString (c.getD best_index 0)

/-! Concrete instances used by witnesses and counterexamples. -/

/-- A one-line configuration with no pins and no filters. -/
def cfgOneLine : Config := ⟨1, "", "", "", "", "", "", ""⟩

/-- A two-line configuration with no pins and no filters. -/
def cfgTwoLines : Config := ⟨2, "", "", "", "", "", "", ""⟩

/-- A concrete tram departure group. -/
def mon60 : Monitor := ⟨"60", "Rodaun", "", [3]⟩

/-- A second concrete departure group. -/
def mon62 : Monitor := ⟨"62", "Lainz", "", [5]⟩

/-- A demo alert map: route 60 carries a disruption note. -/
def demoDescr : List (String × String) := [("60", "alert")]

/-- A demo payload: three departures of the same route and direction, the
middle one carrying the sentinel countdown -1. -/
def demoPayload : List MonitorRec :=
  [⟨[⟨"60", "Rodaun", some
      [⟨some ("60", "RODAUN"), some 5⟩,
       ⟨some ("60", "RODAUN"), some (-1)⟩,
       ⟨some ("60", "RODAUN"), some 7⟩]⟩]⟩]

/-- A payload whose only departure entry has neither a `vehicle` object
nor a `departureTime`. -/
def badPayload : List MonitorRec :=
  [⟨[⟨"60", "Rodaun", some [⟨none, none⟩]⟩]⟩]

/-- A concrete middle-text width collaborator: every character one pixel
wide, four pixels of sprite width. -/
def fits4 : String → Bool := IsEnoughSpaceForMiddleText String.length 4

/-! Theorems. -/

/-- C9: `FetchRBL` on an empty stop id returns the empty string at once,
performs no network call and leaves the whole manager state unchanged. -/
theorem fetch_empty_id_noop (st : ApiCacheManager) (now : Nat) (force : Bool)
    (net : String) (netDur : Nat) :
    FetchRBL st now "" force net netDur = ⟨"", st, none⟩ := by
  simp [FetchRBL]

/-- C10: `GetValidCountdown` never reads out of bounds: the empty list
gives the empty string, and a non-empty list is read at the index clamped
to `min index (length - 1)`, whose decimal rendering is returned. -/
theorem get_valid_countdown_clamped (c : List Int) (index : Nat) (h : c ≠ []) :
    GetValidCountdown [] index = "" ∧
    ∃ hlt : min index (c.length - 1) < c.length,
      GetValidCountdown c index = toString (c.get ⟨min index (c.length - 1), hlt⟩) ∧
      (index < c.length → min index (c.length - 1) = index) ∧
      (c.length ≤ index → min index (c.length - 1) = c.length - 1) := by
  have hlen : 0 < c.length := List.length_pos.mpr h
  have hlt : min index (c.length - 1) < c.length := by omega
  refine ⟨by simp [GetValidCountdown], hlt, ?_, ?_, ?_⟩
  · simp [GetValidCountdown, h, List.getD_eq_getElem?_getD,
      List.getElem?_eq_getElem hlt]
  · omega
  · omega

/-- Witness for C10 at a concrete list and an index past the end. -/
theorem get_valid_countdown_clamped_wit :
    GetValidCountdown [] 5 = "" ∧
    ∃ hlt : min 5 (([3, 7] : List Int).length - 1) < ([3, 7] : List Int).length,
      GetValidCountdown [3, 7] 5
        = toString (([3, 7] : List Int).get ⟨min 5 (([3, 7] : List Int).length - 1), hlt⟩) ∧
      (5 < ([3, 7] : List Int).length → min 5 (([3, 7] : List Int).length - 1) = 5) ∧
      (([3, 7] : List Int).length ≤ 5 → min 5 (([3, 7] : List Int).length - 1)
        = ([3, 7] : List Int).length - 1) :=
  get_valid_countdown_clamped [3, 7] 5 (by decide)

/-- `GetFilteredMonitors` of the empty list is empty for every filter. -/
theorem getFilteredMonitors_nil (filter : String) :
    GetFilteredMonitors [] filter = [] := by
  simp [GetFilteredMonitors]

/-- C7: a failed acquisition cycle (both parse results empty) leaves the
per-line buckets, the scroll state and the toggle state exactly as they
were. -/
theorem failed_cycle_preserves_state (tm : TraficManager) (scr : ScreenState)
    (cfg : Config) (now : Nat) :
    acquisitionCycle tm scr cfg now [] [] = (tm, scr) := by
  simp [acquisitionCycle, getFilteredMonitors_nil]

/-- C1 counterexample: a successful data update with a non-empty monitor
set leaves a non-zero scroll offset and a set kicked-off flag untouched,
because the `FullResetScroll` call in `TraficManager::update` is guarded
by `p_trafic_clock`, which the sketch never allocates. -/
theorem update_leaves_scroll_state_cex :
    (TraficManager.update ⟨[[mon60]], 0, true, true⟩ ⟨[[-5]], [[true]]⟩
        cfgOneLine 1000 [mon60] []).2 = ⟨[[-5]], [[true]]⟩ ∧
    (TraficManager.update ⟨[[mon60]], 0, true, true⟩ ⟨[[-5]], [[true]]⟩
        cfgOneLine 1000 [mon60] []).2 ≠ ⟨[[0]], [[false]]⟩ := by
  decide

/-- C1 amended: after every data update, `show_first_departure` is true
and `last_toggle_time` equals the current time, but with the trafic-clock
pointer null (its constructor state, never changed by the sketch) the
scroll offsets and kicked-off flags are left exactly as they were. -/
theorem update_resets_toggle_keeps_scroll (tm : TraficManager) (scr : ScreenState)
    (cfg : Config) (now : Nat) (mainData line3Data : List Monitor)
    (hnull : tm.trafic_clock_null = true) :
    (TraficManager.update tm scr cfg now mainData line3Data).1.show_first_departure = true ∧
    (TraficManager.update tm scr cfg now mainData line3Data).1.last_toggle_time = now ∧
    (TraficManager.update tm scr cfg now mainData line3Data).2 = scr ∧
    (TraficManager.update tm scr cfg now mainData line3Data).1.trafic_clock_null = true ∧
    initTraficManager.trafic_clock_null = true := by
  simp [TraficManager.update, hnull, initTraficManager]

/-- Witness for the amended C1 at a concrete state and update. -/
theorem update_resets_toggle_keeps_scroll_wit :
    (TraficManager.update ⟨[[mon60]], 0, true, true⟩ ⟨[[-5]], [[true]]⟩
        cfgOneLine 1000 [mon60] []).1.show_first_departure = true ∧
    (TraficManager.update ⟨[[mon60]], 0, true, true⟩ ⟨[[-5]], [[true]]⟩
        cfgOneLine 1000 [mon60] []).1.last_toggle_time = 1000 ∧
    (TraficManager.update ⟨[[mon60]], 0, true, true⟩ ⟨[[-5]], [[true]]⟩
        cfgOneLine 1000 [mon60] []).2 = ⟨[[-5]], [[true]]⟩ ∧
    (TraficManager.update ⟨[[mon60]], 0, true, true⟩ ⟨[[-5]], [[true]]⟩
        cfgOneLine 1000 [mon60] []).1.trafic_clock_null = true ∧
    initTraficManager.trafic_clock_null = true :=
  update_resets_toggle_keeps_scroll ⟨[[mon60]], 0, true, true⟩ ⟨[[-5]], [[true]]⟩
    cfgOneLine 1000 [mon60] [] rfl

/-- C2 counterexample: a presentation toggle between two identical
same-length bucket snapshots (no row's content changed) still zeroes
every row's scroll offset and kicked-off flag, because
`TraficManager::updateScreen` calls `FullResetScroll` on toggle and
never `SelectiveReset`. -/
theorem toggle_resets_unchanged_row_cex :
    (TraficManager.updateScreen ⟨[[mon60], [mon62]], 0, true, true⟩
        ⟨[[-3], [-7]], [[true], [true]]⟩ cfgTwoLines 4000).2
      = ⟨[[0], [0]], [[false], [false]]⟩ ∧
    ((TraficManager.updateScreen ⟨[[mon60], [mon62]], 0, true, true⟩
        ⟨[[-3], [-7]], [[true], [true]]⟩ cfgTwoLines 4000).2).scrolls
      ≠ [[-3], [-7]] := by
  decide

/-- C2 amended: when the 4-second presentation toggle fires, the whole
scroll state is reset for every row regardless of content changes: the
toggle flips `show_first_departure`, restarts the toggle timer and
applies `FullResetScroll`, leaving every offset zero and every flag
false. -/
theorem toggle_fully_resets_scroll (tm : TraficManager) (scr : ScreenState)
    (cfg : Config) (now : Nat)
    (hne : tm.monitors_per_line ≠ [])
    (htime : 4000 ≤ now - tm.last_toggle_time) :
    (TraficManager.updateScreen tm scr cfg now).2 = FullResetScroll scr ∧
    (TraficManager.updateScreen tm scr cfg now).1.show_first_departure
      = ¬ tm.show_first_departure ∧
    (TraficManager.updateScreen tm scr cfg now).1.last_toggle_time = now ∧
    (∀ row ∈ (FullResetScroll scr).scrolls, ∀ x ∈ row, x = 0) ∧
    (∀ row ∈ (FullResetScroll scr).inits, ∀ b ∈ row, b = false) := by
  refine ⟨?_, ?_, ?_, ?_, ?_⟩ <;>
    simp_all [TraficManager.updateScreen, FullResetScroll]

/-- Witness for the amended C2 at a concrete toggle. -/
theorem toggle_fully_resets_scroll_wit :
    (TraficManager.updateScreen ⟨[[mon60], [mon62]], 0, true, true⟩
        ⟨[[-3], [-7]], [[true], [true]]⟩ cfgTwoLines 4000).2
      = FullResetScroll ⟨[[-3], [-7]], [[true], [true]]⟩ ∧
    (TraficManager.updateScreen ⟨[[mon60], [mon62]], 0, true, true⟩
        ⟨[[-3], [-7]], [[true], [true]]⟩ cfgTwoLines 4000).1.show_first_departure
      = ¬ true ∧
    (TraficManager.updateScreen ⟨[[mon60], [mon62]], 0, true, true⟩
        ⟨[[-3], [-7]], [[true], [true]]⟩ cfgTwoLines 4000).1.last_toggle_time = 4000 ∧
    (∀ row ∈ (FullResetScroll ⟨[[-3], [-7]], [[true], [true]]⟩).scrolls,
      ∀ x ∈ row, x = 0) ∧
    (∀ row ∈ (FullResetScroll ⟨[[-3], [-7]], [[true], [true]]⟩).inits,
      ∀ b ∈ row, b = false) :=
  toggle_fully_resets_scroll ⟨[[mon60], [mon62]], 0, true, true⟩
    ⟨[[-3], [-7]], [[true], [true]]⟩ cfgTwoLines 4000 (by decide) (by decide)

/-- C4 counterexample: a departure entry with neither a `vehicle` object
nor a `departureTime` does contribute a group: the parser emits a monitor
with empty route name, empty direction and no countdowns for it. -/
theorem missing_fields_entry_group_cex :
    GetMonitorsFromJson [] badPayload = [⟨"", "", "", []⟩] ∧
    GetMonitorsFromJson [] badPayload ≠ [] := by
  decide

/-- `mergeMonitor` with the sentinel countdown: the vector is unchanged
when a monitor with the same key exists, else the new monitor is pushed. -/
theorem mergeMonitor_sentinel (vec : List Monitor) (m : Monitor) :
    mergeMonitor vec m (-1)
      = if ∃ x ∈ vec, x.name = m.name ∧ x.towards = m.towards then vec
        else vec ++ [m] := by
  induction vec with
  | nil => simp [mergeMonitor]
  | cons x rest ih =>
      by_cases hx : x.name = m.name ∧ x.towards = m.towards
      · simp [mergeMonitor, hx]
      · simp only [mergeMonitor, if_neg hx, ih]
        by_cases hr : ∃ y ∈ rest, y.name = m.name ∧ y.towards = m.towards
        · rw [if_pos hr, if_pos (by exact ⟨hr.choose, List.mem_cons_of_mem x hr.choose_spec.1, hr.choose_spec.2⟩)]
        · rw [if_neg hr, if_neg ?_, List.cons_append]
          rintro ⟨y, hy, hkey⟩
          rcases List.mem_cons.mp hy with h | h
          · exact hx (h ▸ hkey)
          · exact hr ⟨y, h, hkey⟩

/-- C4 amended: a departure entry with neither a `vehicle` object nor a
`departureTime` contributes no countdown and changes no existing group,
but when no group with empty route name and empty direction exists yet
it appends one such empty group (so it does contribute a group). -/
theorem missing_fields_entry_empty_group (descrMap : List (String × String))
    (vec : List Monitor) (ctx : String × String) (it : DepartureItem)
    (hv : it.vehicle = none) (hd : it.departureTime = none) :
    stepItem descrMap vec (ctx, it)
      = if ∃ x ∈ vec, x.name = "" ∧ x.towards = "" then vec
        else vec ++ [⟨"", "", mapLookupDefault descrMap "", []⟩] := by
  rcases it with ⟨v, d⟩
  cases hv
  cases hd
  simpa [stepItem, itemFields] using
    mergeMonitor_sentinel vec ⟨"", "", mapLookupDefault descrMap "", []⟩

/-- Witness for the amended C4: the bad entry appended to an empty vector
produces exactly the empty-keyed group. -/
theorem missing_fields_entry_empty_group_wit :
    stepItem [] [] (("60", "Rodaun"), ⟨none, none⟩)
      = if ∃ x ∈ ([] : List Monitor), x.name = "" ∧ x.towards = "" then []
        else [] ++ [⟨"", "", mapLookupDefault [] "", []⟩] :=
  missing_fields_entry_empty_group [] [] ("60", "Rodaun") ⟨none, none⟩ rfl rfl

/-- `cacheFind` after `cacheInsert` at the same key. -/
theorem cacheFind_insert_self (c : List (String × CachedData)) (k : String)
    (v : CachedData) : cacheFind (cacheInsert c k v) k = some v := by
  induction c with
  | nil => simp [cacheInsert, cacheFind]
  | cons kv rest ih =>
      by_cases hk : kv.1 = k
      · simp [cacheInsert, cacheFind, hk]
      · simp [cacheInsert, cacheFind, hk, ih]

/-- C5: starting from a state with no entry for a non-empty stop id, the
first `FetchRBL` performs a network call and stores a valid entry stamped
at the call completion; a second call without force is answered from the
cache exactly when the age is strictly below the 60000 ms TTL (one
network call in total), and at age exactly equal to the TTL it falls
through to `fetchFresh`, whose result always carries a network call. -/
theorem fetch_ttl_exclusive_boundary (st : ApiCacheManager)
    (rbl net1 net2 : String) (t1 d1 t2 d2 : Nat)
    (hrbl : rbl ≠ "") (hnet : net1 ≠ "")
    (hmiss : cacheFind st.cache rbl = none) :
    ((FetchRBL st t1 rbl false net1 d1).netStart).isSome = true ∧
    cacheFind (FetchRBL st t1 rbl false net1 d1).st.cache rbl
      = some ⟨net1, (FetchRBL st t1 rbl false net1 d1).st.last_api_call_ms, true⟩ ∧
    FetchRBL (FetchRBL st t1 rbl false net1 d1).st t2 rbl false net2 d2
      = (if t2 - (FetchRBL st t1 rbl false net1 d1).st.last_api_call_ms
            < CACHE_DURATION_MS then
          ⟨net1, (FetchRBL st t1 rbl false net1 d1).st, none⟩
        else fetchFresh (FetchRBL st t1 rbl false net1 d1).st t2 rbl net2 d2) ∧
    ∀ (st2 : ApiCacheManager) (now2 : Nat) (r n : String) (d : Nat),
      ((fetchFresh st2 now2 r n d).netStart).isSome = true := by
  have h1 : FetchRBL st t1 rbl false net1 d1 = fetchFresh st t1 rbl net1 d1 := by
    simp [FetchRBL, hrbl, hmiss]
  have hfind : cacheFind (fetchFresh st t1 rbl net1 d1).st.cache rbl
      = some ⟨net1, (fetchFresh st t1 rbl net1 d1).st.last_api_call_ms, true⟩ := by
    simp [fetchFresh, cacheFind_insert_self, hnet]
  refine ⟨by simp [h1, fetchFresh], by rw [h1]; exact hfind, ?_, fun _ _ _ _ _ => by simp [fetchFresh]⟩
  rw [h1]
  by_cases hage : t2 - (fetchFresh st t1 rbl net1 d1).st.last_api_call_ms < CACHE_DURATION_MS
  · rw [if_pos hage]
    simp [FetchRBL, hrbl, hfind, hage]
  · rw [if_neg hage]
    simp [FetchRBL, hrbl, hfind, hage]

/-- Witness for C5: the second fetch 1000 ms after a zero-duration first
fetch at time 0 is a cache hit. -/
theorem fetch_ttl_exclusive_boundary_wit :
    ((FetchRBL ⟨[], 0⟩ 0 "1" false "x" 0).netStart).isSome = true ∧
    cacheFind (FetchRBL ⟨[], 0⟩ 0 "1" false "x" 0).st.cache "1"
      = some ⟨"x", (FetchRBL ⟨[], 0⟩ 0 "1" false "x" 0).st.last_api_call_ms, true⟩ ∧
    FetchRBL (FetchRBL ⟨[], 0⟩ 0 "1" false "x" 0).st 1000 "1" false "y" 0
      = (if 1000 - (FetchRBL ⟨[], 0⟩ 0 "1" false "x" 0).st.last_api_call_ms
            < CACHE_DURATION_MS then
          ⟨"x", (FetchRBL ⟨[], 0⟩ 0 "1" false "x" 0).st, none⟩
        else fetchFresh (FetchRBL ⟨[], 0⟩ 0 "1" false "x" 0).st 1000 "1" "y" 0) ∧
    ∀ (st2 : ApiCacheManager) (now2 : Nat) (r n : String) (d : Nat),
      ((fetchFresh st2 now2 r n d).netStart).isSome = true :=
  fetch_ttl_exclusive_boundary ⟨[], 0⟩ "1" "x" "y" 0 0 1000 0
    (by decide) (by decide) rfl

/-- Every `FetchRBL` call either makes no network call or behaves exactly
as `fetchFresh`. -/
theorem fetchRBL_none_or_fresh (st : ApiCacheManager) (now : Nat) (rbl : String)
    (force : Bool) (net : String) (netDur : Nat) :
    (FetchRBL st now rbl force net netDur).netStart = none ∨
    FetchRBL st now rbl force net netDur = fetchFresh st now rbl net netDur := by
  by_cases hrbl : rbl = ""
  · exact Or.inl (by simp [FetchRBL, hrbl])
  rcases hforce : force with _ | _
  · rcases hfind : cacheFind st.cache rbl with _ | c
    · exact Or.inr (by simp [FetchRBL, hrbl, hfind])
    · by_cases hc : c.is_valid = true ∧ now - c.timestamp_ms < CACHE_DURATION_MS
      · exact Or.inl (by simp [FetchRBL, hrbl, hfind, hc])
      · exact Or.inr (by simp [FetchRBL, hrbl, hfind, hc])
  · exact Or.inr (by simp [FetchRBL, hrbl])

/-- Characterisation of a `FetchRBL` call that made a network call: its
start time is the delayed start of `fetchFresh` and the stored
`last_api_call_ms` is the completion time `start + netDur`. -/
theorem fetchRBL_netStart_some (st : ApiCacheManager) (now : Nat) (rbl : String)
    (force : Bool) (net : String) (netDur s : Nat)
    (h : (FetchRBL st now rbl force net netDur).netStart = some s) :
    s = (if 0 < st.last_api_call_ms ∧
            now - st.last_api_call_ms < SEQUENTIAL_DELAY_MS then
          st.last_api_call_ms + SEQUENTIAL_DELAY_MS
        else now) ∧
    (FetchRBL st now rbl force net netDur).st.last_api_call_ms = s + netDur := by
  rcases fetchRBL_none_or_fresh st now rbl force net netDur with hn | hf
  · rw [hn] at h
    exact absurd h (by simp)
  · rw [hf] at h ⊢
    simp only [fetchFresh] at h ⊢
    exact ⟨(Option.some_inj.mp h).symm, by rw [Option.some_inj.mp h]⟩

/-- C6: two consecutive network calls made by the cache start at least
`SEQUENTIAL_DELAY_MS` (3000 ms) apart, provided the first call completed
at a positive millis value (the sketch treats `last_api_call_ms = 0` as
"no call yet"); and a fetch answered from the cache neither updates the
manager state nor depends on the shared last-call timestamp: for every
value of that timestamp it returns the cached payload and the state
unchanged. -/
theorem fetch_spacing_and_cache_hit :
    (∀ (st : ApiCacheManager) (t1 : Nat) (r1 : String) (f1 : Bool) (n1 : String)
       (d1 t2 : Nat) (r2 : String) (f2 : Bool) (n2 : String) (d2 s1 s2 : Nat),
       (FetchRBL st t1 r1 f1 n1 d1).netStart = some s1 →
       (FetchRBL (FetchRBL st t1 r1 f1 n1 d1).st t2 r2 f2 n2 d2).netStart = some s2 →
       0 < s1 + d1 →
       s1 + SEQUENTIAL_DELAY_MS ≤ s2) ∧
    (∀ (cache : List (String × CachedData)) (l now : Nat) (rbl net : String)
       (d : Nat) (c : CachedData),
       rbl ≠ "" → cacheFind cache rbl = some c → c.is_valid = true →
       now - c.timestamp_ms < CACHE_DURATION_MS →
       FetchRBL ⟨cache, l⟩ now rbl false net d = ⟨c.json_response, ⟨cache, l⟩, none⟩) := by
  constructor
  · intro st t1 r1 f1 n1 d1 t2 r2 f2 n2 d2 s1 s2 h1 h2 hpos
    obtain ⟨-, hlast⟩ := fetchRBL_netStart_some st t1 r1 f1 n1 d1 s1 h1
    obtain ⟨hs2, -⟩ := fetchRBL_netStart_some _ t2 r2 f2 n2 d2 s2 h2
    rw [hlast] at hs2
    rw [SEQUENTIAL_DELAY_MS] at hs2 ⊢
    split at hs2 <;> omega
  · intro cache l now rbl net d c hrbl hfind hvalid hage
    simp [FetchRBL, hrbl, hfind, hvalid, hage]

/-- Witness for C6: a delayed second network call starts 3005 ms after
the first network call started, and a concrete cache hit returns the
cached payload with the state untouched. -/
theorem fetch_spacing_and_cache_hit_wit :
    (3005 : Nat) + SEQUENTIAL_DELAY_MS ≤ 6010 ∧
    FetchRBL ⟨[("1", ⟨"x", 3010, true⟩)], 999⟩ 3011 "1" false "y" 0
      = ⟨"x", ⟨[("1", ⟨"x", 3010, true⟩)], 999⟩, none⟩ :=
  ⟨fetch_spacing_and_cache_hit.1 ⟨[], 5⟩ 5 "1" false "x" 5 3011 "1" true "y" 0
      3005 6010 (by decide) (by decide) (by decide),
   fetch_spacing_and_cache_hit.2 [("1", ⟨"x", 3010, true⟩)] 999 3011 "1" "y" 0
      ⟨"x", 3010, true⟩ (by decide) (by decide) rfl (by decide)⟩

/-- The keys `(name, towards)` of a monitor vector. -/
def keysOf (vec : List Monitor) : List (String × String) :=
  vec.map Monitor.key

/-- The invariant of the departure-merge loop: `vec` holds at most one
monitor per key, its keys are exactly the keys of the processed items,
and each monitor's countdowns are the extracted countdowns of the
processed items with its key. -/
def ParseInv (done : List ((String × String) × DepartureItem))
    (vec : List Monitor) : Prop :=
  (keysOf vec).Nodup ∧
  (∀ k, k ∈ keysOf vec ↔ ∃ p ∈ done, itemKey p = k) ∧
  (∀ m ∈ vec, m.countdown = extractedCds done m.key)

theorem itemFields_countdown (n t : String) (it : DepartureItem) :
    (itemFields n t it).1.countdown = cdList (itemFields n t it).2 := by
  rcases it with ⟨v, d⟩
  rcases v with _ | v <;> rcases d with _ | cd <;> simp [itemFields, cdList]

theorem monitor_key_iff (x m : Monitor) :
    (x.name = m.name ∧ x.towards = m.towards) ↔ x.key = m.key := by
  simp [Monitor.key, Prod.ext_iff]

theorem mergeMonitor_not_found (vec : List Monitor) (m : Monitor) (cd : Int)
    (h : m.key ∉ keysOf vec) :
    mergeMonitor vec m cd = vec ++ [m] := by
  induction vec with
  | nil => simp [mergeMonitor]
  | cons x rest ih =>
      have hx : ¬(x.name = m.name ∧ x.towards = m.towards) := by
        rw [monitor_key_iff]
        intro hk
        exact h (by simp [keysOf, ← hk])
      rw [mergeMonitor, if_neg hx, ih (fun hr => h (by simp [keysOf] at hr ⊢; exact Or.inr hr)),
        List.cons_append]

theorem mergeMonitor_found_spec (vec : List Monitor) (m : Monitor) (cd : Int)
    (hnd : (keysOf vec).Nodup) (h : m.key ∈ keysOf vec) :
    keysOf (mergeMonitor vec m cd) = keysOf vec ∧
    ∀ m0 ∈ mergeMonitor vec m cd,
      (m0 ∈ vec ∧ m0.key ≠ m.key) ∨
      (∃ x ∈ vec, x.key = m.key ∧
        m0 = if cd = -1 then x else { x with countdown := x.countdown ++ [cd] }) := by
  induction vec with
  | nil => simp [keysOf] at h
  | cons x rest ih =>
      have hnd1 : Monitor.key x ∉ List.map Monitor.key rest ∧
          (List.map Monitor.key rest).Nodup := List.nodup_cons.mp hnd
      by_cases hx : x.name = m.name ∧ x.towards = m.towards
      · have hkey : x.key = m.key := (monitor_key_iff x m).mp hx
        have hnotin : m.key ∉ keysOf rest := hkey ▸ hnd1.1
        have hkeyupd :
            (if cd = -1 then x
             else { x with countdown := x.countdown ++ [cd] }).key = x.key := by
          split <;> rfl
        rw [mergeMonitor, if_pos hx]
        constructor
        · simp only [keysOf, List.map_cons]
          rw [hkeyupd]
        · intro m0 hm0
          rcases List.mem_cons.mp hm0 with heq | hm0rest
          · exact Or.inr ⟨x, List.mem_cons_self x rest, hkey, heq⟩
          · refine Or.inl ⟨List.mem_cons_of_mem x hm0rest, fun hk0 => hnotin ?_⟩
            rw [← hk0]
            exact List.mem_map_of_mem Monitor.key hm0rest
      · have hne : x.key ≠ m.key := fun hk => hx ((monitor_key_iff x m).mpr hk)
        have hmem : m.key ∈ keysOf rest := by
          rcases List.mem_cons.mp h with heq | hr
          · exact absurd heq.symm hne
          · exact hr
        obtain ⟨hkeys, helem⟩ := ih hnd1.2 hmem
        rw [mergeMonitor, if_neg hx]
        refine ⟨?_, ?_⟩
        · simp only [keysOf, List.map_cons] at hkeys ⊢
          rw [hkeys]
        · intro m0 hm0
          rcases List.mem_cons.mp hm0 with heq | hm0r
          · exact Or.inl ⟨heq ▸ List.mem_cons_self x rest, heq ▸ hne⟩
          · rcases helem m0 hm0r with ⟨hmr, hner⟩ | ⟨y, hy, hky, heqy⟩
            · exact Or.inl ⟨List.mem_cons_of_mem x hmr, hner⟩
            · exact Or.inr ⟨y, List.mem_cons_of_mem x hy, hky, heqy⟩

theorem extractedCds_append (ps qs : List ((String × String) × DepartureItem))
    (k : String × String) :
    extractedCds (ps ++ qs) k = extractedCds ps k ++ extractedCds qs k := by
  simp [extractedCds, List.filter_append]

theorem extractedCds_single (p : (String × String) × DepartureItem)
    (k : String × String) :
    extractedCds [p] k
      = if itemKey p = k then cdList (itemFields p.1.1 p.1.2 p.2).2 else [] := by
  by_cases hk : itemKey p = k <;> simp [extractedCds, hk]

theorem extractedCds_of_not_mem (ps : List ((String × String) × DepartureItem))
    (k : String × String) (h : ∀ p ∈ ps, itemKey p ≠ k) :
    extractedCds ps k = [] := by
  have : ps.filter (fun p => itemKey p = k) = [] := by
    rw [List.filter_eq_nil_iff]
    intro p hp
    simpa using h p hp
  simp [extractedCds, this]

theorem stepItem_inv (d : List (String × String))
    (done : List ((String × String) × DepartureItem)) (vec : List Monitor)
    (p : (String × String) × DepartureItem) (h : ParseInv done vec) :
    ParseInv (done ++ [p]) (stepItem d vec p) := by
  obtain ⟨hnd, hmem, hcd⟩ := h
  set cd : Int := (itemFields p.1.1 p.1.2 p.2).2 with hcddef
  set m : Monitor :=
    { (itemFields p.1.1 p.1.2 p.2).1 with
      description := mapLookupDefault d (itemFields p.1.1 p.1.2 p.2).1.name } with hmdef
  have hkeym : m.key = itemKey p := by simp [itemKey, Monitor.key, hmdef]
  have hcdm : m.countdown = cdList cd := by
    simp only [hmdef, hcddef]
    exact itemFields_countdown p.1.1 p.1.2 p.2
  have hstep : stepItem d vec p = mergeMonitor vec m cd := rfl
  by_cases hk : m.key ∈ keysOf vec
  · obtain ⟨hkeys, helem⟩ := mergeMonitor_found_spec vec m cd hnd hk
    rw [hstep]
    refine ⟨hkeys ▸ hnd, ?_, ?_⟩
    · intro k
      rw [hkeys, hmem k]
      constructor
      · rintro ⟨q, hq, hkq⟩
        exact ⟨q, List.mem_append_left _ hq, hkq⟩
      · rintro ⟨q, hq, hkq⟩
        rcases List.mem_append.mp hq with hq1 | hq2
        · exact ⟨q, hq1, hkq⟩
        · have hqp : q = p := List.mem_singleton.mp hq2
          subst hqp
          rw [← hkq, ← hkeym]
          exact (hmem m.key).mp hk
    · intro m0 hm0
      rcases helem m0 hm0 with ⟨hv, hne⟩ | ⟨x, hx, hkx, heq⟩
      · rw [extractedCds_append, extractedCds_single,
          if_neg (fun hEq => hne (by rw [← hEq, hkeym])), List.append_nil]
        exact hcd m0 hv
      · subst heq
        have hkey0 :
            (if cd = -1 then x
             else { x with countdown := x.countdown ++ [cd] }).key = m.key := by
          split <;> exact hkx
        have hcnt :
            (if cd = -1 then x
             else { x with countdown := x.countdown ++ [cd] }).countdown
              = x.countdown ++ cdList cd := by
          by_cases h1 : cd = -1 <;> simp [h1, cdList]
        have hcond : itemKey p
            = (if cd = -1 then x
               else { x with countdown := x.countdown ++ [cd] }).key := by
          rw [hkey0]
          exact hkeym.symm
        rw [extractedCds_append, extractedCds_single, if_pos hcond, hkey0, hcnt,
          hcd x hx, hkx]
  · rw [hstep, mergeMonitor_not_found vec m cd hk]
    have hkeysapp : keysOf (vec ++ [m]) = keysOf vec ++ [m.key] := by
      simp [keysOf]
    refine ⟨?_, ?_, ?_⟩
    · rw [hkeysapp]
      refine List.Nodup.append hnd (List.nodup_singleton _) ?_
      intro k hk1 hk2
      rw [List.mem_singleton] at hk2
      exact hk (hk2 ▸ hk1)
    · intro k
      rw [hkeysapp, List.mem_append, List.mem_singleton]
      constructor
      · rintro (hk1 | rfl)
        · obtain ⟨q, hq, hkq⟩ := (hmem k).mp hk1
          exact ⟨q, List.mem_append_left _ hq, hkq⟩
        · exact ⟨p, List.mem_append_right _ (List.mem_singleton_self p), hkeym.symm⟩
      · rintro ⟨q, hq, hkq⟩
        rcases List.mem_append.mp hq with hq1 | hq2
        · exact Or.inl ((hmem k).mpr ⟨q, hq1, hkq⟩)
        · have hqp : q = p := List.mem_singleton.mp hq2
          subst hqp
          exact Or.inr (by rw [← hkq]; exact hkeym.symm)
    · intro m0 hm0
      rcases List.mem_append.mp hm0 with hv | he
      · rw [extractedCds_append, extractedCds_single,
          if_neg ?_, List.append_nil]
        · exact hcd m0 hv
        · intro hEq
          exact hk (by rw [hkeym, hEq]; exact List.mem_map_of_mem Monitor.key hv)
      · have hm0m : m0 = m := List.mem_singleton.mp he
        subst hm0m
        have hnone : ∀ q ∈ done, itemKey q ≠ m.key := by
          intro q hq hEq
          exact hk ((hmem m.key).mpr ⟨q, hq, hEq⟩)
        rw [extractedCds_append, extractedCds_single, if_pos hkeym.symm,
          extractedCds_of_not_mem done m.key hnone, List.nil_append]
        exact hcdm

theorem foldl_stepItem_inv (d : List (String × String))
    (ps : List ((String × String) × DepartureItem)) :
    ∀ done vec, ParseInv done vec → ParseInv (done ++ ps) (ps.foldl (stepItem d) vec) := by
  induction ps with
  | nil => intro done vec h; simpa using h
  | cons p ps ih =>
      intro done vec h
      have h2 := ih (done ++ [p]) (stepItem d vec p) (stepItem_inv d done vec p h)
      simpa using h2

theorem parseInv_nil : ParseInv [] [] := by
  refine ⟨by simp [keysOf], by simp [keysOf], by simp⟩

theorem processItems_eq_foldl (d : List (String × String)) (n t : String)
    (items : List DepartureItem) :
    ∀ vec, processItems d n t items vec
      = (items.map (fun it => ((n, t), it))).foldl (stepItem d) vec := by
  induction items with
  | nil => intro vec; simp [processItems]
  | cons it rest ih => intro vec; simp [processItems, ih]

theorem processLine_eq_foldl (d : List (String × String)) (ln : LineRec) :
    ∀ vec, processLine d ln vec = (lineItems ln).foldl (stepItem d) vec := by
  intro vec
  cases hd : ln.departure <;>
    simp [processLine, lineItems, hd, processItems_eq_foldl]

theorem foldl_lines_eq (d : List (String × String)) (lines : List LineRec) :
    ∀ vec, lines.foldl (fun v ln => processLine d ln v) vec
      = (lines.flatMap lineItems).foldl (stepItem d) vec := by
  induction lines with
  | nil => intro vec; simp
  | cons ln rest ih =>
      intro vec
      simp only [List.foldl_cons, List.flatMap_cons, List.foldl_append]
      rw [ih (processLine d ln vec), processLine_eq_foldl]

theorem getMonitors_eq_foldl (d : List (String × String)) (mons : List MonitorRec) :
    GetMonitorsFromJson d mons = (allItems mons).foldl (stepItem d) [] := by
  rw [GetMonitorsFromJson, allItems]
  generalize ([] : List Monitor) = vec
  induction mons generalizing vec with
  | nil => simp
  | cons mr rest ih =>
      simp only [List.foldl_cons, List.flatMap_cons, List.foldl_append]
      rw [ih (mr.lines.foldl (fun v ln => processLine d ln v) vec),
        foldl_lines_eq]

/-- C3: the parser emits at most one group per `(route_name, towards)`
key, and each group's countdowns are exactly the concatenation, in input
order, of the countdowns extracted from the departure records resolving
to that key, with the sentinel -1 excluded. -/
theorem parse_merge_invariant (descrMap : List (String × String))
    (mons : List MonitorRec) :
    (keysOf (GetMonitorsFromJson descrMap mons)).Nodup ∧
    ∀ m ∈ GetMonitorsFromJson descrMap mons,
      m.countdown = extractedCds (allItems mons) m.key := by
  have h := foldl_stepItem_inv descrMap (allItems mons) [] [] parseInv_nil
  rw [← getMonitors_eq_foldl] at h
  simp only [List.nil_append] at h
  exact ⟨h.1, h.2.2⟩

/-- Witness for C3 on the demo payload: the three same-key records merge
into one group whose countdowns are [5, 7]. -/
theorem parse_merge_invariant_wit :
    (⟨"60", "Rodaun", "alert", [5, 7]⟩ : Monitor).countdown
      = extractedCds (allItems demoPayload)
          (⟨"60", "Rodaun", "alert", [5, 7]⟩ : Monitor).key :=
  (parse_merge_invariant demoDescr demoPayload).2
    ⟨"60", "Rodaun", "alert", [5, 7]⟩ (by decide)

/-- The scan of `getMaximumPosibleSingleNoScrollWord` stops exactly at
the first prefix that does not fit: if every prefix shorter than `L`
fits and the prefix of length `L` does not (or `L` is the whole string),
the scan returns the first `L` characters. -/
theorem scanAux_spec (fits : String → Bool) :
    ∀ (rest done : List Char) (L : Nat),
      L ≤ rest.length →
      (∀ j < L, fits (String.mk (done ++ rest.take j)) = true) →
      (L < rest.length → fits (String.mk (done ++ rest.take L)) = false) →
      scanAux fits done rest = done ++ rest.take L := by
  intro rest
  induction rest with
  | nil =>
      intro done L hL hfit hstop
      have hL0 : L = 0 := Nat.le_zero.mp hL
      subst hL0
      simp [scanAux]
  | cons c rest ih =>
      intro done L hL hfit hstop
      have hcat : ∀ (l : List Char), (done ++ [c]) ++ l = done ++ c :: l := by
        intro l
        simp
      rcases L with _ | L1
      · have h0 : fits (String.mk done) = false := by
          have h3 := hstop (Nat.succ_pos rest.length)
          simpa using h3
        simp [scanAux, h0]
      · have h0 : fits (String.mk done) = true := by
          have h3 := hfit 0 (Nat.succ_pos L1)
          simpa using h3
        have hfit2 : ∀ j < L1, fits (String.mk ((done ++ [c]) ++ rest.take j)) = true := by
          intro j hj
          have h3 := hfit (j + 1) (Nat.succ_lt_succ hj)
          rw [List.take_succ_cons] at h3
          rw [hcat]
          exact h3
        have hstop2 : L1 < rest.length →
            fits (String.mk ((done ++ [c]) ++ rest.take L1)) = false := by
          intro hlt
          have h3 := hstop (Nat.succ_lt_succ hlt)
          rw [List.take_succ_cons] at h3
          rw [hcat]
          exact h3
        simp only [scanAux, h0, if_true]
        rw [ih (done ++ [c]) L1 (Nat.succ_le_succ_iff.mp (by simpa using hL)) hfit2 hstop2,
          List.take_succ_cons, hcat]

/-- C8 counterexample: for a 12-character unbroken token against a
4-pixel-wide collaborator (one pixel per character), the low-retention
condition holds, but the code produces the 3-character scan result while
the longest fitting prefix trimmed by two characters is 2 characters:
the spec formula and the code differ by one character. -/
theorem low_retention_fallback_cex :
    layoutMiddle fits4 "ABCDEFGHIJKL" = ("ABC", "") ∧
    specFallbackSub1 fits4 "ABCDEFGHIJKL" = "AB" ∧
    2 * (((splitToString fits4 "ABCDEFGHIJKL").take 2).map String.length).sum
      < ("ABCDEFGHIJKL" : String).length ∧
    ("ABC" : String) ≠ "AB" := by
  decide

/-- C8 amended: under the low-retention condition, sub-line 1 is the
scanned prefix — one character past the longest fitting prefix, capped
at the whole text — trimmed by its two trailing characters (so the
longest fitting prefix trimmed by one character), and sub-line 2 is
empty. `L` is the scan stopping length: every shorter prefix fits and
the length-`L` prefix does not (or `L` is the text length). -/
theorem low_retention_truncated_scan (fits : String → Bool) (towards : String)
    (L : Nat) (hne : towards ≠ "")
    (hret : 2 * (((splitToString fits towards).take 2).map String.length).sum
      < towards.length)
    (hL : L ≤ towards.toList.length)
    (hfit : ∀ j < L, fits (String.mk (towards.toList.take j)) = true)
    (hstop : L < towards.toList.length →
      fits (String.mk (towards.toList.take L)) = false) :
    layoutMiddle fits towards = (String.mk (towards.toList.take (L - 2)), "") := by
  have hscan : scanAux fits [] towards.toList = towards.toList.take L := by
    have h := scanAux_spec fits towards.toList [] L hL
      (by simpa using hfit) (by simpa using hstop)
    simpa using h
  have hmax : getMaximumPosibleSingleNoScrollWord fits towards
      = String.mk (towards.toList.take (L - 2)) := by
    simp only [getMaximumPosibleSingleNoScrollWord, hscan, List.length_take,
      Nat.min_eq_left hL]
    by_cases h2 : 2 ≤ L
    · rw [if_pos h2, List.take_take, Nat.min_eq_left (Nat.sub_le L 2)]
    · rw [if_neg h2]
      have hz : L - 2 = 0 := by omega
      rw [hz, List.take_zero]
  simp only [layoutMiddle]
  rw [if_pos ⟨hne, hret⟩, hmax]

/-- Witness for the amended C8: the scan of the 12-character token stops
at length 5, and sub-line 1 is its first three characters. -/
theorem low_retention_truncated_scan_wit :
    layoutMiddle fits4 "ABCDEFGHIJKL"
      = (String.mk (("ABCDEFGHIJKL" : String).toList.take (5 - 2)), "") :=
  low_retention_truncated_scan fits4 "ABCDEFGHIJKL" 5 (by decide) (by decide)
    (by decide) (by decide) (by decide)

end WlEsp32
